import Mathlib

/-!
Formal model of the client-side cache and batched-mutation layer of
`src/lib/supabase.ts` (the version with `DataCache`, `BatchQueue` and the
caching `api` facade).

Conventions of the embedding:
* `Date.now()` is an explicit `now : Nat` parameter (milliseconds).
* The JS `Map<string, {data, timestamp, ttl}>` backing `DataCache` is an
  association list without duplicate keys; `Map.get/set/delete` become
  `lookup`, `mapSet`, `mapDelete`.
* Remote (supabase) calls are oracle parameters: a call that can fail is an
  `Except SbError _` value supplied by the caller of the model.
* Promise rejection is the `Except.error` constructor; `throw e` in an
  `async` function is modelled by returning `Except.error e`.
-/

/-- Rows of the `profiles` table (interface `Profile`). -/
structure Profile where
  id : String
  nickname : String
  avatar_url : Option String
  created_at : String
deriving DecidableEq, Repr

/-- The mission category union type. -/
inductive Category where
  | physical | emotional | social | spiritual
deriving DecidableEq, Repr

/-- The mission frequency union type. -/
inductive Frequency where
  | daily | weekly | monthly
deriving DecidableEq, Repr

/-- Rows of the `user_missions` table (interface `UserMission`). -/
structure UserMission where
  id : String
  user_id : String
  title : String
  category : Category
  frequency : Frequency
  sticker : String
  is_custom : Bool
  created_at : String
deriving DecidableEq, Repr

/-- Rows of the `mission_completions` table (interface `MissionCompletion`). -/
structure MissionCompletion where
  id : String
  user_id : String
  mission_id : String
  completed_at : String
deriving DecidableEq, Repr

/-- `Omit<UserMission, 'id' | 'created_at'>`: the insert payload of `createMission`. -/
structure MissionInsert where
  user_id : String
  title : String
  category : Category
  frequency : Frequency
  sticker : String
  is_custom : Bool
deriving DecidableEq, Repr

/-- An opaque supabase error object; only its presence matters to the model. -/
structure SbError where
  message : String
deriving DecidableEq, Repr

/-- JS `pat.includes`-style matching on character lists: `p` occurs as a
leading segment of `l`. -/
def hasPre : List Char → List Char → Bool
  | [], _ => true
  | _ :: _, [] => false
  | a :: p, b :: l => a == b && hasPre p l

/-- `p` occurs as a contiguous segment of `l` (at any position). -/
def hasSub (p : List Char) : List Char → Bool
  | [] => p.isEmpty
  | b :: l => hasPre p (b :: l) || hasSub p l

/-- JS `s.includes(pat)`: `pat` occurs as a contiguous substring of `s`. -/
def strIncludes (s pat : String) : Bool :=
  hasSub pat.toList s.toList

/-- One stored cache record: the object literal `{ data, timestamp, ttl }`
built by `DataCache.set`. -/
structure CacheEntry (α : Type) where
  data : α
  timestamp : Nat
  ttl : Nat
deriving DecidableEq, Repr

/-- The backing `Map<string, CacheEntry>`: an association list with at most
one binding per key (JS `Map` keeps keys unique). -/
abbrev Cache (α : Type) := List (String × CacheEntry α)

/-- JS `Map.prototype.get`. -/
def lookup {α : Type} : Cache α → String → Option (CacheEntry α)
  | [], _ => none
  | (k', e) :: rest, k => if k' == k then some e else lookup rest k

/-- JS `Map.prototype.set`: overwrite in place when the key is present
(keeping insertion order), append otherwise. -/
def mapSet {α : Type} : Cache α → String → CacheEntry α → Cache α
  | [], k, e => [(k, e)]
  | (k', e') :: rest, k, e =>
    if k' == k then (k', e) :: rest else (k', e') :: mapSet rest k e

/-- JS `Map.prototype.delete`. -/
def mapDelete {α : Type} (c : Cache α) (k : String) : Cache α :=
  c.filter (fun p => !(p.1 == k))

/-- The default 5-minute TTL of `DataCache.set` (`ttl: number = 300000`). -/
def defaultTTL : Nat := 300000

/-- `DataCache.set(key, data, ttl)`: store `{ data, timestamp: Date.now(), ttl }`. -/
def DataCache.set {α : Type} (c : Cache α) (key : String) (data : α)
    (ttl : Nat) (now : Nat) : Cache α :=
  mapSet c key ⟨data, now, ttl⟩

/-- `DataCache.get(key)`: return `null` on a missing key; delete and return
`null` when `Date.now() - cached.timestamp > cached.ttl`; otherwise return
the stored data.  The pair is (returned value, cache after the call). -/
def DataCache.get {α : Type} (c : Cache α) (key : String) (now : Nat) :
    Option α × Cache α :=
  match lookup c key with
  | none => (none, c)
  | some cached =>
    if cached.ttl < now - cached.timestamp then (none, mapDelete c key)
    else (some cached.data, c)

/-- `DataCache.delete(key)`. -/
def DataCache.delete {α : Type} (c : Cache α) (key : String) : Cache α :=
  mapDelete c key

/-- `DataCache.clear()`. -/
def DataCache.clear {α : Type} (_c : Cache α) : Cache α := []

/-- `DataCache.invalidatePattern(pattern)`: snapshot the key list
(`Array.from(this.cache.keys())`) and delete every key that `includes` the
pattern. -/
def DataCache.invalidatePattern {α : Type} (c : Cache α) (pat : String) : Cache α :=
  (c.map Prod.fst).foldl
    (fun acc key => if strIncludes key pat then mapDelete acc key else acc) c

/-- `api.ensureProfile(user)`: cache hit short-circuits; otherwise the
remote fetch (`fetchRes = some p` models `existingProfile && !fetchError`)
or the remote insert (`createRes`) supplies the profile, which is cached
under `profile:<userId>` with the default TTL.  A create error rethrows
(the surrounding catch logs and rethrows, leaving the cache untouched). -/
def api.ensureProfile (userId : String) (now : Nat)
    (fetchRes : Option Profile) (createRes : Except SbError Profile)
    (c : Cache Profile) : Except SbError Profile × Cache Profile :=
  let cacheKey := "profile:" ++ userId
  let g := DataCache.get c cacheKey now
  match g.1 with
  | some cached => (Except.ok cached, g.2)
  | none =>
    match fetchRes with
    | some existingProfile =>
      (Except.ok existingProfile,
        DataCache.set g.2 cacheKey existingProfile defaultTTL now)
    | none =>
      match createRes with
      | Except.error e => (Except.error e, g.2)
      | Except.ok newProfile =>
        (Except.ok newProfile,
          DataCache.set g.2 cacheKey newProfile defaultTTL now)

/-- `api.getUserMissions(userId, useCache = true)`: consult the cache only
when `useCache`; on a miss, the remote read (`remote`, whose payload is
`data : UserMission[] | null`) either throws or yields `data || []`, which
is cached under `missions:<userId>` with the default TTL. -/
def api.getUserMissions (userId : String) (useCache : Bool) (now : Nat)
    (remote : Except SbError (Option (List UserMission)))
    (c : Cache (List UserMission)) :
    Except SbError (List UserMission) × Cache (List UserMission) :=
  let cacheKey := "missions:" ++ userId
  let g := if useCache then DataCache.get c cacheKey now else (none, c)
  match g.1 with
  | some cached => (Except.ok cached, g.2)
  | none =>
    match remote with
    | Except.error e => (Except.error e, g.2)
    | Except.ok data =>
      let result := data.getD []
      (Except.ok result, DataCache.set g.2 cacheKey result defaultTTL now)

/-- `api.getTodayCompletions(userId, useCache = true)`: like
`getUserMissions` but keyed `completions:<userId>:<today>` and cached with
the short 1-minute TTL (`dataCache.set(cacheKey, result, 60000)`). -/
def api.getTodayCompletions (userId : String) (useCache : Bool)
    (today : String) (now : Nat)
    (remote : Except SbError (Option (List MissionCompletion)))
    (c : Cache (List MissionCompletion)) :
    Except SbError (List MissionCompletion) × Cache (List MissionCompletion) :=
  let cacheKey := "completions:" ++ userId ++ ":" ++ today
  let g := if useCache then DataCache.get c cacheKey now else (none, c)
  match g.1 with
  | some cached => (Except.ok cached, g.2)
  | none =>
    match remote with
    | Except.error e => (Except.error e, g.2)
    | Except.ok data =>
      let result := data.getD []
      (Except.ok result, DataCache.set g.2 cacheKey result 60000 now)

/-- The closure `api.deleteMission` enqueues on the batch queue: on remote
success it invalidates the `missions:` and `completions:` patterns and
resolves; on remote failure it rejects the caller's promise and leaves the
cache untouched.  The first component is the settlement of that promise;
the cache is the shared `dataCache` (value type left abstract, as the JS
map stores `unknown`). -/
def api.deleteMissionOp {α : Type} (_missionId : String)
    (remote : Except SbError Unit) (c : Cache α) :
    Except SbError Unit × Cache α :=
  match remote with
  | Except.ok _ =>
    (Except.ok (),
      DataCache.invalidatePattern
        (DataCache.invalidatePattern c "missions:") "completions:")
  | Except.error e => (Except.error e, c)

/-- State of `BatchQueue`: the pending `queue` array and the `processing`
re-entrancy flag. -/
structure BQState (α : Type) where
  queue : List α
  processing : Bool
deriving DecidableEq, Repr

/-- Events observable at the queue's suspension points: `add op` is a call
to `BatchQueue.add` (push + synchronous `process()` call, which runs up to
the first `await`); `resume` is the drain loop waking up after
`await Promise.all(...)` and the `setTimeout` pause, re-checking the loop
condition. -/
inductive BQEvent (α : Type) where
  | add (op : α)
  | resume
deriving DecidableEq, Repr

/-- `private batchSize = 10`. -/
def batchSize : Nat := 10

/-- One synchronous segment of `BatchQueue`.  `add`: push the operation and
call `process()`; if `processing` is set the call returns at the guard,
otherwise the loop body runs synchronously up to its first `await`,
splicing (and emitting as a round) up to `batchSize` operations from the
head.  `resume`: the suspended loop re-checks `queue.length > 0`; if empty
it exits and clears `processing`, otherwise it splices the next round and
suspends again.  The second component is the round spliced off (the
operations handed to `Promise.all`), if any. -/
def BatchQueue.step {α : Type} (s : BQState α) :
    BQEvent α → BQState α × Option (List α)
  | BQEvent.add op =>
    let q := s.queue ++ [op]
    if s.processing then (⟨q, true⟩, none)
    else (⟨q.drop batchSize, true⟩, some (q.take batchSize))
  | BQEvent.resume =>
    if s.processing then
      if s.queue.isEmpty then (⟨s.queue, false⟩, none)
      else (⟨s.queue.drop batchSize, true⟩, some (s.queue.take batchSize))
    else (s, none)

/-- Run a sequence of events, collecting the spliced rounds in order. -/
def BatchQueue.run {α : Type} (s : BQState α) :
    List (BQEvent α) → BQState α × List (List α)
  | [] => (s, [])
  | e :: es =>
    let p := BatchQueue.step s e
    let r := BatchQueue.run p.1 es
    (r.1, p.2.toList ++ r.2)

/-- The operations a trace of events enqueues, in call order. -/
def addedOps {α : Type} : List (BQEvent α) → List α
  | [] => []
  | BQEvent.add op :: es => op :: addedOps es
  | BQEvent.resume :: es => addedOps es

/-- Successive `splice(0, 10)` groups of a list (the rounds the drain loop
forms from a queue it empties without further `add`s). -/
def chunks10 {α : Type} : List α → List (List α)
  | [] => []
  | a :: l => ((a :: l).take 10) :: chunks10 (l.drop 9)
termination_by l => l.length
decreasing_by simp; omega

/-- Execution of one queued closure whose remote call resolves or rejects
as `remote` says.  First component: the settlement the closure delivers to
its caller's promise (`resolve()` / `reject(error)`).  Second component:
the closure's own completion — always normal, because its body wraps the
work in `try { ... resolve() } catch (error) { reject(error) }`. -/
def settleOp {ε : Type} (remote : Except ε Unit) : Except ε Unit × Except ε Unit :=
  match remote with
  | Except.ok _ => (Except.ok (), Except.ok ())
  | Except.error e => (Except.error e, Except.ok ())

/-- `Promise.all`: rejects with the first rejection, resolves otherwise. -/
def promiseAll {ε : Type} : List (Except ε Unit) → Except ε Unit
  | [] => Except.ok ()
  | Except.error e :: _ => Except.error e
  | Except.ok _ :: rs => promiseAll rs

/-- The drain loop of `BatchQueue.process` over a queue of closures (each
identified by its remote outcome), assuming no concurrent `add`s: each
iteration splices up to 10 closures, runs them all (each settles its own
caller promise), and the `try { await Promise.all(batch...) } catch`
swallows any aggregate rejection, so the loop always proceeds to the next
round.  Returns, per round, the settlements delivered in that round. -/
def BatchQueue.process {ε : Type} :
    List (Except ε Unit) → List (List (Except ε Unit))
  | [] => []
  | a :: l =>
    let batch := (a :: l).take 10
    let settlements := batch.map (fun op => (settleOp op).1)
    let _loopOutcome := promiseAll (batch.map (fun op => (settleOp op).2))
    settlements :: BatchQueue.process (l.drop 9)
termination_by l => l.length
decreasing_by simp; omega

/-- One record of the `pendingOperations` list (interface
`PendingOperation`); `unknownType` models the `default` switch branch. -/
inductive PendingOp where
  | create_mission (data : MissionInsert)
  | complete_mission (userId missionId : String)
  | delete_mission (missionId : String)
  | unknownType
deriving DecidableEq, Repr

/-- The parse of `localStorage.getItem('pendingOperations')`: either
`JSON.parse` throws (`malformed`) or yields a list of operations. -/
inductive StoredPending where
  | malformed
  | parsed (ops : List PendingOp)
deriving DecidableEq, Repr

/-- Whether a promise outcome is a resolution. -/
def isOk {ε : Type} : Except ε Unit → Bool
  | Except.ok _ => true
  | Except.error _ => false

/-- The promise each pending operation's replay produces, per the `switch`:
the three known types dispatch to the corresponding `api` mutation (whose
outcome the oracle `exec` supplies); the `default` branch is
`Promise.resolve()`. -/
def replayOutcome (exec : PendingOp → Except SbError Unit) :
    PendingOp → Except SbError Unit
  | PendingOp.unknownType => Except.ok ()
  | op => exec op

/-- `api.syncPendingOperations()`: returns the `pendingOperations` record
after the call.  No record: return early.  Otherwise, inside `try`:
`JSON.parse` (throws on `malformed`), `await Promise.all` over the replays
(rejects iff some replay rejects), and only then
`localStorage.removeItem('pendingOperations')`; the `catch` only logs, so
on a parse failure or any replay rejection the record is left in place. -/
def api.syncPendingOperations (stored : Option StoredPending)
    (exec : PendingOp → Except SbError Unit) : Option StoredPending :=
  match stored with
  | none => none
  | some StoredPending.malformed => some StoredPending.malformed
  | some (StoredPending.parsed operations) =>
    if operations.all (fun op => isOk (replayOutcome exec op)) then none
    else some (StoredPending.parsed operations)

section CacheLemmas

variable {α : Type}

theorem lookup_mapSet_self (c : Cache α) (k : String) (e : CacheEntry α) :
    lookup (mapSet c k e) k = some e := by
  induction c with
  | nil => simp [mapSet, lookup]
  | cons p rest ih =>
    obtain ⟨k', e'⟩ := p
    by_cases h : k' = k
    · simp [mapSet, lookup, h]
    · simp only [mapSet, lookup, beq_iff_eq, h, if_false, if_neg h]
      exact ih

theorem lookup_mapSet_other (c : Cache α) (k k' : String) (e : CacheEntry α)
    (h : k' ≠ k) : lookup (mapSet c k e) k' = lookup c k' := by
  induction c with
  | nil => simp [mapSet, lookup, beq_iff_eq, Ne.symm h]
  | cons p rest ih =>
    obtain ⟨k₀, e₀⟩ := p
    by_cases h0 : k₀ = k
    · subst h0
      simp [mapSet, lookup, beq_iff_eq, Ne.symm h]
    · simp only [mapSet, lookup, beq_iff_eq, if_neg h0]
      by_cases h1 : k₀ = k'
      · simp [h1]
      · simp only [if_neg h1]
        exact ih

theorem lookup_filter_key (c : Cache α) (Q : String → Bool) (k : String) :
    lookup (c.filter (fun p => Q p.1)) k
      = if Q k then lookup c k else none := by
  induction c with
  | nil => simp [lookup]
  | cons p rest ih =>
    obtain ⟨k₀, e₀⟩ := p
    by_cases hq : Q k₀
    · by_cases hk : k₀ = k
      · subst hk
        simp [List.filter, lookup, hq]
      · simp [List.filter, lookup, hq, hk, ih]
    · by_cases hk : k₀ = k
      · subst hk
        simp only [List.filter, hq, Bool.false_eq_true, if_false, cond_false]
        rw [ih]
        simp [hq]
      · simp only [List.filter, hq, Bool.false_eq_true, cond_false]
        rw [ih]
        simp [lookup, hk]

theorem lookup_mapDelete_self (c : Cache α) (k : String) :
    lookup (mapDelete c k) k = none := by
  show lookup (c.filter (fun p => !(p.1 == k))) k = none
  rw [lookup_filter_key c (fun x => !(x == k)) k]
  simp

theorem lookup_mapDelete_other (c : Cache α) (k k' : String) (h : k' ≠ k) :
    lookup (mapDelete c k) k' = lookup c k' := by
  show lookup (c.filter (fun p => !(p.1 == k))) k' = lookup c k'
  rw [lookup_filter_key c (fun x => !(x == k)) k']
  simp [h]

theorem foldl_delete_eq_filter (pat : String) (L : List String) (acc : Cache α) :
    L.foldl (fun a key => if strIncludes key pat then mapDelete a key else a) acc
      = acc.filter (fun p => !(strIncludes p.1 pat && L.contains p.1)) := by
  induction L generalizing acc with
  | nil => simp
  | cons k L ih =>
    simp only [List.foldl_cons]
    rw [ih]
    by_cases hP : strIncludes k pat = true
    · simp only [hP, if_true]
      unfold mapDelete
      rw [List.filter_filter]
      apply List.filter_congr
      intro p _
      by_cases hk : p.1 = k
      · have hb : (p.1 == k) = true := by simp [hk]
        simp [hb, hk, hP, List.contains_cons]
      · have hb : (p.1 == k) = false := by simp [hk]
        simp [hb, hk, List.contains_cons]
    · have hP' : strIncludes k pat = false := by
        cases hig : strIncludes k pat
        · rfl
        · exact absurd hig hP
      simp only [hP', Bool.false_eq_true, if_false]
      apply List.filter_congr
      intro p _
      by_cases hk : p.1 = k
      · rw [hk, hP']
        simp [List.contains_cons]
      · have hb : (p.1 == k) = false := by simp [hk]
        simp [hb, hk, List.contains_cons]

theorem invalidatePattern_eq_filter (c : Cache α) (pat : String) :
    DataCache.invalidatePattern c pat
      = c.filter (fun p => !(strIncludes p.1 pat)) := by
  unfold DataCache.invalidatePattern
  rw [foldl_delete_eq_filter]
  apply List.filter_congr
  intro p hp
  have hmem : p.1 ∈ c.map Prod.fst := List.mem_map_of_mem Prod.fst hp
  have hc : (c.map Prod.fst).contains p.1 = true := List.elem_iff.mpr hmem
  show (!(strIncludes p.1 pat && (c.map Prod.fst).contains p.1))
      = (!(strIncludes p.1 pat))
  rw [hc, Bool.and_true]

theorem lookup_invalidatePattern (c : Cache α) (pat k : String) :
    lookup (DataCache.invalidatePattern c pat) k
      = if strIncludes k pat then none else lookup c k := by
  rw [invalidatePattern_eq_filter]
  rw [lookup_filter_key c (fun x => !(strIncludes x pat)) k]
  cases hig : strIncludes k pat <;> simp [hig]

end CacheLemmas

section BatchQueueLemmas

variable {α : Type}

theorem settleOp_fst {ε : Type} (r : Except ε Unit) : (settleOp r).1 = r := by
  cases r <;> rfl

theorem chunks10_flatten (l : List α) : (chunks10 l).flatten = l := by
  induction l using chunks10.induct with
  | case1 => simp [chunks10]
  | case2 a l ih =>
    have hch : chunks10 (a :: l) = (a :: l).take 10 :: chunks10 (l.drop 9) := by
      rw [chunks10]
    rw [hch, List.flatten_cons, ih,
      show List.drop 9 l = List.drop 10 (a :: l) from rfl,
      List.take_append_drop]

theorem chunks10_length (l : List α) :
    (chunks10 l).length = (l.length + 9) / 10 := by
  induction l using chunks10.induct with
  | case1 => simp [chunks10]
  | case2 a l ih =>
    rw [chunks10]
    simp only [List.length_cons, ih, List.length_drop]
    omega

theorem chunks10_mem_length_le (l r : List α) (h : r ∈ chunks10 l) :
    r.length ≤ 10 := by
  induction l using chunks10.induct with
  | case1 => simp [chunks10] at h
  | case2 a l ih =>
    rw [chunks10] at h
    rcases List.mem_cons.mp h with h1 | h2
    · rw [h1, List.length_take]
      exact Nat.min_le_left _ _
    · exact ih h2

theorem process_eq_chunks10 {ε : Type} (q : List (Except ε Unit)) :
    BatchQueue.process q = chunks10 q := by
  induction q using chunks10.induct with
  | case1 => simp [BatchQueue.process, chunks10]
  | case2 a l ih =>
    rw [show BatchQueue.process (a :: l)
        = ((a :: l).take 10).map (fun op => (settleOp op).1)
          :: BatchQueue.process (l.drop 9) from by rw [BatchQueue.process]]
    rw [show chunks10 (a :: l) = (a :: l).take 10 :: chunks10 (l.drop 9) from by
      rw [chunks10]]
    rw [ih]
    simp [settleOp_fst]

theorem run_append (t1 t2 : List (BQEvent α)) (s : BQState α) :
    BatchQueue.run s (t1 ++ t2)
      = ((BatchQueue.run (BatchQueue.run s t1).1 t2).1,
         (BatchQueue.run s t1).2 ++ (BatchQueue.run (BatchQueue.run s t1).1 t2).2) := by
  induction t1 generalizing s with
  | nil => simp [BatchQueue.run]
  | cons e es ih =>
    simp only [List.cons_append, BatchQueue.run, List.append_eq]
    rw [ih]
    simp [List.append_assoc]

theorem run_adds_processing (ops : List α) (q : List α) :
    BatchQueue.run ⟨q, true⟩ (ops.map BQEvent.add) = (⟨q ++ ops, true⟩, []) := by
  induction ops generalizing q with
  | nil => simp [BatchQueue.run]
  | cons op ops ih =>
    simp only [List.map_cons, BatchQueue.run, BatchQueue.step]
    simp only [if_true]
    rw [ih]
    simp

theorem run_cons (s : BQState α) (e : BQEvent α) (es : List (BQEvent α)) :
    BatchQueue.run s (e :: es)
      = ((BatchQueue.run (BatchQueue.step s e).1 es).1,
         (BatchQueue.step s e).2.toList
           ++ (BatchQueue.run (BatchQueue.step s e).1 es).2) := rfl

theorem step_add_processing (q : List α) (op : α) :
    BatchQueue.step ⟨q, true⟩ (BQEvent.add op) = (⟨q ++ [op], true⟩, none) := by
  simp [BatchQueue.step]

theorem step_add_idle (q : List α) (op : α) :
    BatchQueue.step ⟨q, false⟩ (BQEvent.add op)
      = (⟨(q ++ [op]).drop batchSize, true⟩, some ((q ++ [op]).take batchSize)) := by
  simp [BatchQueue.step]

theorem step_resume_empty :
    BatchQueue.step (⟨[], true⟩ : BQState α) BQEvent.resume = (⟨[], false⟩, none) := by
  simp [BatchQueue.step]

theorem step_resume_cons (a : α) (l : List α) :
    BatchQueue.step ⟨a :: l, true⟩ BQEvent.resume
      = (⟨(a :: l).drop batchSize, true⟩, some ((a :: l).take batchSize)) := by
  simp [BatchQueue.step]

theorem step_resume_idle (q : List α) :
    BatchQueue.step ⟨q, false⟩ BQEvent.resume = (⟨q, false⟩, none) := by
  simp [BatchQueue.step]

theorem run_resumes_drain (q : List α) :
    BatchQueue.run ⟨q, true⟩
        (List.replicate ((chunks10 q).length + 1) BQEvent.resume)
      = (⟨[], false⟩, chunks10 q) := by
  induction q using chunks10.induct with
  | case1 =>
    simp [chunks10, List.replicate, run_cons, step_resume_empty, BatchQueue.run]
  | case2 a l ih =>
    have hch : chunks10 (a :: l) = (a :: l).take 10 :: chunks10 (l.drop 9) := by
      rw [chunks10]
    have hdrop : List.drop batchSize (a :: l) = List.drop 9 l := rfl
    rw [hch]
    simp only [List.length_cons]
    rw [List.replicate_succ, run_cons, step_resume_cons]
    simp only [hdrop]
    rw [ih]
    simp [batchSize]

theorem run_join_queue (t : List (BQEvent α)) (s : BQState α) :
    (BatchQueue.run s t).2.flatten ++ (BatchQueue.run s t).1.queue
      = s.queue ++ addedOps t := by
  induction t generalizing s with
  | nil => simp [BatchQueue.run, addedOps]
  | cons e es ih =>
    obtain ⟨q, pr⟩ := s
    rw [run_cons]
    cases e with
    | add op =>
      cases pr with
      | true =>
        rw [step_add_processing]
        simp only [Option.toList, List.nil_append]
        rw [ih ⟨q ++ [op], true⟩]
        simp [addedOps]
      | false =>
        rw [step_add_idle]
        simp only [Option.toList, List.singleton_append, List.flatten_cons]
        rw [List.append_assoc, ih ⟨(q ++ [op]).drop batchSize, true⟩]
        rw [← List.append_assoc, List.take_append_drop]
        simp [addedOps]
    | resume =>
      cases pr with
      | true =>
        cases q with
        | nil =>
          rw [step_resume_empty]
          simp only [Option.toList, List.nil_append]
          rw [ih ⟨[], false⟩]
          simp [addedOps]
        | cons a l =>
          rw [step_resume_cons]
          simp only [Option.toList, List.singleton_append, List.flatten_cons]
          rw [List.append_assoc, ih ⟨(a :: l).drop batchSize, true⟩]
          rw [← List.append_assoc, List.take_append_drop]
          simp [addedOps]
      | false =>
        rw [step_resume_idle]
        simp only [Option.toList, List.nil_append]
        rw [ih ⟨q, false⟩]
        simp [addedOps]

end BatchQueueLemmas

/-- Claim C1: for every key, value and TTL, `get(k)` immediately after
`set(k, v, t)` returns `v`; `get(k)` more than `t` after the set returns
absent and removes the entry (a subsequent presence check finds nothing);
and at the exact boundary (elapsed = `t`) the entry is still valid. -/
theorem claim1_ttl_lifecycle {α : Type} (c : Cache α) (k : String) (v : α)
    (ttl now extra : Nat) :
    ((DataCache.get (DataCache.set c k v ttl now) k now).1 = some v)
    ∧ ((DataCache.get (DataCache.set c k v ttl now) k (now + ttl + 1 + extra)).1
          = none
       ∧ lookup ((DataCache.get (DataCache.set c k v ttl now) k
            (now + ttl + 1 + extra)).2) k = none)
    ∧ ((DataCache.get (DataCache.set c k v ttl now) k (now + ttl)).1 = some v) := by
  have hl : lookup (DataCache.set c k v ttl now) k = some ⟨v, now, ttl⟩ :=
    lookup_mapSet_self c k _
  have hgt : ttl < now + ttl + 1 + extra - now := by omega
  have hle : ¬ ttl < now + ttl - now := by omega
  have hz : ¬ ttl < now - now := by omega
  refine ⟨?_, ⟨?_, ?_⟩, ?_⟩
  · simp [DataCache.get, hl, hz]
  · simp [DataCache.get, hl, hgt]
  · simp [DataCache.get, hl, hgt, lookup_mapDelete_self]
  · simp [DataCache.get, hl, hle]

/-- Claim C2 counterexample: enqueueing M = 12 operations back-to-back from
the Idle state and letting the drain finish yields 3 rounds — the first
containing only the first operation — not the claimed ⌈12/10⌉ = 2 rounds of
the first ten and the remainder. -/
theorem claim2_counterexample :
    (BatchQueue.run ⟨[], false⟩
        (((List.range 12).map BQEvent.add)
          ++ List.replicate 3 BQEvent.resume)).2
      = [[0], [1, 2, 3, 4, 5, 6, 7, 8, 9, 10], [11]]
    ∧ ¬ ((BatchQueue.run ⟨[], false⟩
        (((List.range 12).map BQEvent.add)
          ++ List.replicate 3 BQEvent.resume)).2.length = (12 + 10 - 1) / 10) := by
  decide

/-- Claim C2 amended: `add` calls `process()` synchronously, so the first
add from Idle immediately splices a round containing only that operation;
a burst of `M = rest.length + 1` back-to-back adds therefore drains in
`1 + ⌈(M − 1)/10⌉` rounds: round 1 is exactly the first operation and the
later rounds take 10 operations at a time from the head, in enqueue order,
each round holding at most 10 operations, ending Idle with an empty queue. -/
theorem claim2_amended {α : Type} (op1 : α) (rest : List α) :
    BatchQueue.run ⟨[], false⟩
        (((op1 :: rest).map BQEvent.add)
          ++ List.replicate ((chunks10 rest).length + 1) BQEvent.resume)
      = ((⟨[], false⟩ : BQState α), [op1] :: chunks10 rest)
    ∧ ([op1] :: chunks10 rest).length = 1 + (rest.length + 9) / 10
    ∧ (∀ r ∈ [op1] :: chunks10 rest, r.length ≤ 10)
    ∧ ([op1] :: chunks10 rest).flatten = op1 :: rest := by
  have h1 : BatchQueue.run ⟨[], false⟩ ((op1 :: rest).map BQEvent.add)
      = (⟨rest, true⟩, [[op1]]) := by
    rw [List.map_cons, run_cons, step_add_idle]
    simp only [List.nil_append]
    rw [run_adds_processing]
    simp [batchSize]
  refine ⟨?_, ?_, ?_, ?_⟩
  · rw [run_append, h1]
    simp only
    rw [run_resumes_drain]
    rfl
  · simp only [List.length_cons, chunks10_length]
    omega
  · intro r hr
    rcases List.mem_cons.mp hr with h | h
    · simp [h]
    · exact chunks10_mem_length_le rest r h
  · rw [List.flatten_cons, chunks10_flatten]
    rfl

/-- Claim C3 counterexample: a pending list whose single replay rejects is
NOT cleared (the removeItem sits after `Promise.all` inside the `try`), and
a malformed payload is NOT cleared either — contradicting "cleared
regardless of individual outcomes". -/
theorem claim3_counterexample :
    api.syncPendingOperations
        (some (StoredPending.parsed [PendingOp.complete_mission "u1" "m1"]))
        (fun _ => Except.error ⟨"network"⟩)
      = some (StoredPending.parsed [PendingOp.complete_mission "u1" "m1"])
    ∧ api.syncPendingOperations (some StoredPending.malformed)
        (fun _ => Except.ok ())
      = some StoredPending.malformed := by
  constructor <;> rfl

/-- Claim C3 amended: the `pendingOperations` record is cleared only when
the payload parses and every replayed operation resolves; if any replay
rejects, or the payload is malformed, the error is caught at the top level
(and logged) and the stored record is left in place unchanged — neither
cleared nor partially retried. -/
theorem claim3_amended (exec : PendingOp → Except SbError Unit)
    (ops ops1 ops2 : List PendingOp) (op : PendingOp) (e : SbError) :
    api.syncPendingOperations none exec = none
    ∧ ((∀ x ∈ ops, replayOutcome exec x = Except.ok ()) →
        api.syncPendingOperations (some (StoredPending.parsed ops)) exec = none)
    ∧ (replayOutcome exec op = Except.error e →
        api.syncPendingOperations
            (some (StoredPending.parsed (ops1 ++ op :: ops2))) exec
          = some (StoredPending.parsed (ops1 ++ op :: ops2)))
    ∧ api.syncPendingOperations (some StoredPending.malformed) exec
        = some StoredPending.malformed := by
  refine ⟨rfl, ?_, ?_, rfl⟩
  · intro hall
    show (if (ops.all fun x => isOk (replayOutcome exec x)) = true then none
          else some (StoredPending.parsed ops)) = (none : Option StoredPending)
    rw [if_pos]
    rw [List.all_eq_true]
    intro x hx
    rw [hall x hx]
    rfl
  · intro hop
    show (if ((ops1 ++ op :: ops2).all fun x => isOk (replayOutcome exec x)) = true
          then none else some (StoredPending.parsed (ops1 ++ op :: ops2)))
        = some (StoredPending.parsed (ops1 ++ op :: ops2))
    rw [if_neg]
    intro hcontra
    rw [List.all_eq_true] at hcontra
    have hmem : op ∈ ops1 ++ op :: ops2 := by simp
    have := hcontra op hmem
    rw [hop] at this
    simp [isOk] at this

/-- Claim C3 amended, witnessed at concrete inputs: an all-resolving replay
list is cleared; a list whose replay rejects is kept. -/
theorem claim3_witness :
    api.syncPendingOperations
        (some (StoredPending.parsed [PendingOp.unknownType]))
        (fun _ => Except.ok ()) = none
    ∧ api.syncPendingOperations
        (some (StoredPending.parsed ([] ++ PendingOp.delete_mission "m" :: [])))
        (fun _ => Except.error ⟨"offline"⟩)
      = some (StoredPending.parsed ([] ++ PendingOp.delete_mission "m" :: [])) := by
  constructor
  · exact (claim3_amended (fun _ => Except.ok ()) [PendingOp.unknownType] [] []
      PendingOp.unknownType ⟨"offline"⟩).2.1
      (by intro x hx; rw [List.mem_singleton.mp hx]; rfl)
  · exact (claim3_amended (fun _ => Except.error ⟨"offline"⟩) [] [] []
      (PendingOp.delete_mission "m") ⟨"offline"⟩).2.2.1 rfl

/-- Claim C4: `invalidatePattern(p)` removes exactly the entries whose key
contains `p` as a substring, and leaves every other entry unchanged (same
value and expiry data). -/
theorem claim4_invalidate_pattern {α : Type} (c : Cache α) (pat k : String) :
    lookup (DataCache.invalidatePattern c pat) k
      = if strIncludes k pat then none else lookup c k :=
  lookup_invalidatePattern c pat k

/-- Claim C5: over any event trace, the rounds the drain loop splices off,
concatenated, followed by the still-pending queue, are exactly the
initially-queued plus added operations in enqueue order — so each operation
is handed to execution exactly once and in FIFO order — and an `add` that
arrives while `processing` is set is a pure append that starts no second
drain loop (it splices no round and leaves the flag set). -/
theorem claim5_exactly_once {α : Type} (s : BQState α) (t : List (BQEvent α)) :
    ((BatchQueue.run s t).2.flatten ++ (BatchQueue.run s t).1.queue
        = s.queue ++ addedOps t)
    ∧ (∀ (q : List α) (op : α),
        BatchQueue.step ⟨q, true⟩ (BQEvent.add op) = (⟨q ++ [op], true⟩, none)) :=
  ⟨run_join_queue t s, fun q op => step_add_processing q op⟩

/-- Claim C6: when a queue contains a rejecting operation, the drain still
settles every operation — each with its own outcome, in order (the flatten
equation) — and still forms every round (the round count depends only on the
queue length, and each round holds at most 10 operations): a rejection is
delivered only to its own promise and aborts neither its siblings nor the
loop. -/
theorem claim6_rejection_isolated (q1 q2 : List (Except SbError Unit))
    (e : SbError) :
    (BatchQueue.process (q1 ++ Except.error e :: q2)).flatten
        = q1 ++ Except.error e :: q2
    ∧ (BatchQueue.process (q1 ++ Except.error e :: q2)).length
        = ((q1 ++ Except.error e :: q2).length + 9) / 10
    ∧ (∀ r ∈ BatchQueue.process (q1 ++ Except.error e :: q2), r.length ≤ 10) := by
  refine ⟨?_, ?_, ?_⟩
  · rw [process_eq_chunks10]
    exact chunks10_flatten _
  · rw [process_eq_chunks10]
    exact chunks10_length _
  · rw [process_eq_chunks10]
    intro r hr
    exact chunks10_mem_length_le _ r hr

/-- Claim C7: a successful read-through by `getTodayCompletions` writes its
entry with TTL 60000 ms, while `getUserMissions` and `ensureProfile` write
theirs with the default TTL 300000 ms, which is strictly larger. -/
theorem claim7_ttl_asymmetry (uidC uidM uidP today : String) (now : Nat)
    (dC : Option (List MissionCompletion)) (cC : Cache (List MissionCompletion))
    (dM : Option (List UserMission)) (cM : Cache (List UserMission))
    (p : Profile) (cr : Except SbError Profile) (cP : Cache Profile)
    (hC : (DataCache.get cC ("completions:" ++ uidC ++ ":" ++ today) now).1 = none)
    (hM : (DataCache.get cM ("missions:" ++ uidM) now).1 = none)
    (hP : (DataCache.get cP ("profile:" ++ uidP) now).1 = none) :
    lookup ((api.getTodayCompletions uidC true today now (Except.ok dC) cC).2)
        ("completions:" ++ uidC ++ ":" ++ today)
      = some ⟨dC.getD [], now, 60000⟩
    ∧ lookup ((api.getUserMissions uidM true now (Except.ok dM) cM).2)
        ("missions:" ++ uidM)
      = some ⟨dM.getD [], now, defaultTTL⟩
    ∧ lookup ((api.ensureProfile uidP now (some p) cr cP).2)
        ("profile:" ++ uidP)
      = some ⟨p, now, defaultTTL⟩
    ∧ 60000 < defaultTTL := by
  refine ⟨?_, ?_, ?_, by norm_num [defaultTTL]⟩
  · simp [api.getTodayCompletions, hC, DataCache.set, lookup_mapSet_self]
  · simp [api.getUserMissions, hM, DataCache.set, lookup_mapSet_self]
  · simp [api.ensureProfile, hP, DataCache.set, lookup_mapSet_self]

/-- Claim C7 witnessed on empty caches (a miss at every key). -/
theorem claim7_witness :
    lookup ((api.getTodayCompletions "u1" true "2024-01-01" 0
          (Except.ok none) []).2)
        ("completions:" ++ "u1" ++ ":" ++ "2024-01-01")
      = some ⟨[], 0, 60000⟩
    ∧ lookup ((api.getUserMissions "u1" true 0 (Except.ok none) []).2)
        ("missions:" ++ "u1")
      = some ⟨[], 0, defaultTTL⟩
    ∧ lookup ((api.ensureProfile "u1" 0 (some ⟨"u1", "nick", none, "t0"⟩)
          (Except.error ⟨"unused"⟩) []).2)
        ("profile:" ++ "u1")
      = some ⟨⟨"u1", "nick", none, "t0"⟩, 0, defaultTTL⟩
    ∧ 60000 < defaultTTL :=
  claim7_ttl_asymmetry "u1" "u1" "u1" "2024-01-01" 0 none [] none []
    ⟨"u1", "nick", none, "t0"⟩ (Except.error ⟨"unused"⟩) [] rfl rfl rfl

/-- Claim C8: a `get(k)` call — in particular one that finds `k` expired and
deletes it — leaves every entry with a different key unchanged. -/
theorem claim8_get_frame {α : Type} (c : Cache α) (k k' : String) (now : Nat)
    (h : k' ≠ k) :
    lookup ((DataCache.get c k now).2) k' = lookup c k' := by
  unfold DataCache.get
  cases hl : lookup c k with
  | none => rfl
  | some cached =>
    by_cases hexp : cached.ttl < now - cached.timestamp
    · simp [hexp, lookup_mapDelete_other c k k' h]
    · simp [hexp]

/-- Claim C8 witnessed: getting the expired key "a" leaves "b" untouched. -/
theorem claim8_witness :
    lookup ((DataCache.get
        [("a", (⟨1, 0, 5⟩ : CacheEntry Nat)), ("b", ⟨2, 0, 5⟩)] "a" 100).2) "b"
      = lookup [("a", (⟨1, 0, 5⟩ : CacheEntry Nat)), ("b", ⟨2, 0, 5⟩)] "b" :=
  claim8_get_frame _ "a" "b" 100 (by decide)

/-- Claim C9: a successfully executed queued `deleteMission` operation
resolves its promise and removes exactly the cache entries whose key
contains `missions:` or `completions:`, leaving every other entry (e.g. the
`profile:` namespace) unchanged. -/
theorem claim9_delete_invalidation {α : Type} (missionId : String)
    (c : Cache α) (k : String) :
    (api.deleteMissionOp missionId (Except.ok ()) c).1 = Except.ok ()
    ∧ lookup ((api.deleteMissionOp missionId (Except.ok ()) c).2) k
      = (if strIncludes k "missions:" || strIncludes k "completions:"
          then none else lookup c k) := by
  constructor
  · rfl
  · show lookup (DataCache.invalidatePattern
        (DataCache.invalidatePattern c "missions:") "completions:") k = _
    rw [lookup_invalidatePattern, lookup_invalidatePattern]
    cases h1 : strIncludes k "completions:" <;>
      cases h2 : strIncludes k "missions:" <;> simp [h1, h2]

/-- Claim C10: with `useCache = false` both cached readers skip the cache
consultation entirely (an error path leaves the cache untouched and always
reports the remote outcome), and a successful remote read still overwrites
the entry, so an immediately following cached `get` returns the refreshed
value.  (`useCache` defaults to `true` in the source signatures.) -/
theorem claim10_cache_bypass (uid today : String) (now : Nat) (e1 e2 : SbError)
    (dM : Option (List UserMission)) (cM cM' : Cache (List UserMission))
    (dC : Option (List MissionCompletion)) (cC cC' : Cache (List MissionCompletion)) :
    ((api.getUserMissions uid false now (Except.error e1) cM).1 = Except.error e1
      ∧ (api.getUserMissions uid false now (Except.error e1) cM).2 = cM)
    ∧ ((api.getUserMissions uid false now (Except.ok dM) cM').1
          = Except.ok (dM.getD [])
      ∧ (DataCache.get ((api.getUserMissions uid false now (Except.ok dM) cM').2)
            ("missions:" ++ uid) now).1 = some (dM.getD []))
    ∧ ((api.getTodayCompletions uid false today now (Except.error e2) cC).1
          = Except.error e2
      ∧ (api.getTodayCompletions uid false today now (Except.error e2) cC).2 = cC)
    ∧ ((api.getTodayCompletions uid false today now (Except.ok dC) cC').1
          = Except.ok (dC.getD [])
      ∧ (DataCache.get
            ((api.getTodayCompletions uid false today now (Except.ok dC) cC').2)
            ("completions:" ++ uid ++ ":" ++ today) now).1 = some (dC.getD [])) := by
  refine ⟨⟨rfl, rfl⟩, ⟨rfl, ?_⟩, ⟨rfl, rfl⟩, ⟨rfl, ?_⟩⟩
  · show (DataCache.get (DataCache.set cM' ("missions:" ++ uid) (dM.getD [])
        defaultTTL now) ("missions:" ++ uid) now).1 = some (dM.getD [])
    simp [DataCache.get, DataCache.set, lookup_mapSet_self, Nat.sub_self]
  · show (DataCache.get (DataCache.set cC'
        ("completions:" ++ uid ++ ":" ++ today) (dC.getD []) 60000 now)
        ("completions:" ++ uid ++ ":" ++ today) now).1 = some (dC.getD [])
    simp [DataCache.get, DataCache.set, lookup_mapSet_self, Nat.sub_self]
